import Mathlib

/-! # Inventory reconciliation of the CRM resolvers (`src/db/resolvers.js`)

A shallow embedding of the order resolvers `nuevoPedido`, `actualizarPedido`,
`eliminarPedido`, of the read queries and of the two ranking aggregations.

The Mongo collections are lists of documents.  Identifiers are natural numbers;
quantities, stock and totals are unbounded integers.  A resolver that throws
may already have saved some products, so every mutation returns both its
outcome and the store it leaves behind.  Calls run one after the other: the
interleaving of concurrent requests is not modelled.
-/

namespace CRM

/-! ## Data model -/

/-- A line of an order: `{ producto, cantidad }` as read by the loops over `input.pedido`. -/
structure Linea where
  producto : Nat
  cantidad : Int
  deriving DecidableEq, Repr

/-- A document of the `Producto` collection (`nombre` and `existencia` are the fields the
resolvers read). -/
structure Producto where
  id : Nat
  nombre : String
  existencia : Int
  deriving DecidableEq, Repr

/-- A document of the `Cliente` collection; `vendedor` is the seller who registered it. -/
structure Cliente where
  id : Nat
  vendedor : Nat
  deriving DecidableEq, Repr

/-- Modelled from the spec: the `estado` field of the `Pedido` model (`models/Pedido` is not
among the sources); the spec lists Pending, Completed and Cancelled. -/
inductive Estado where
  | pendiente
  | completado
  | cancelado
  deriving DecidableEq, Repr

/-- A document of the `Pedido` collection. -/
structure Pedido where
  id : Nat
  pedido : List Linea
  total : Int
  cliente : Nat
  vendedor : Nat
  estado : Estado
  deriving DecidableEq, Repr

/-- The `input` argument of `nuevoPedido` and `actualizarPedido`.  `pedido` may be absent
(`if (input.pedido)`), and so may `estado`.  An absent `cliente` behaves like an identifier
no stored client has, so `cliente` is always given here. -/
structure PedidoInput where
  pedido : Option (List Linea)
  total : Int
  cliente : Nat
  estado : Option Estado
  deriving DecidableEq, Repr

/-- The errors the resolvers throw, one constructor per condition that is reported (the
wording of a message differs slightly between resolvers); `typeError` is the `TypeError`
raised by reading a field of `null` (a product that `findById` did not find) or by iterating
an absent `input.pedido`. -/
inductive Err where
  | noExisteCliente
  | clienteOtroVendedor
  | pedidoNoExiste
  | pedidoOtroVendedor
  | stockInsuficiente (nombre : String) (existencia : Int)
  | typeError
  deriving DecidableEq, Repr

/-- Modelled from the spec: the error taxonomy of its section 7. -/
inductive Clase where
  | notFound
  | forbidden
  | insufficientStock
  | interno
  deriving DecidableEq, Repr

/-- Modelled from the spec: the taxonomy kind of each thrown error. -/
def Err.clase : Err → Clase
  | .noExisteCliente => .notFound
  | .pedidoNoExiste => .notFound
  | .clienteOtroVendedor => .forbidden
  | .pedidoOtroVendedor => .forbidden
  | .stockInsuficiente _ _ => .insufficientStock
  | .typeError => .interno

/-- A document of the `Usuario` collection (a seller); only its identifier matters here. -/
structure Usuario where
  id : Nat
  deriving DecidableEq, Repr

/-- The store: the collections the resolvers touch. -/
structure Almacen where
  productos : List Producto
  clientes : List Cliente
  pedidos : List Pedido
  usuarios : List Usuario
  deriving DecidableEq, Repr

/-! ## Collection primitives -/

/-- The call `Producto.findById(id)`. -/
def Producto.findById (col : List Producto) (id : Nat) : Option Producto :=
  col.find? (fun p => p.id == id)

/-- The call `Cliente.findById(id)`. -/
def Cliente.findById (col : List Cliente) (id : Nat) : Option Cliente :=
  col.find? (fun c => c.id == id)

/-- The call `Pedido.findById(id)`. -/
def Pedido.findById (col : List Pedido) (id : Nat) : Option Pedido :=
  col.find? (fun p => p.id == id)

/-- The call `productoActual.save()` after `existencia` was assigned: the document with that
identifier gets the new `existencia`. -/
def Producto.save (col : List Producto) (id : Nat) (existencia : Int) : List Producto :=
  col.map (fun q => if q.id == id then { q with existencia := existencia } else q)

/-- The fields `findByIdAndUpdate(id, input)` writes on an order. -/
def Pedido.aplicar (input : PedidoInput) (p : Pedido) : Pedido :=
  { p with
    pedido := input.pedido.getD p.pedido
    total := input.total
    cliente := input.cliente
    estado := input.estado.getD p.estado }

/-- The call `Pedido.findByIdAndUpdate(id, input, { new: true })`: the first document with the
identifier is updated. -/
def Pedido.findByIdAndUpdate : List Pedido → Nat → PedidoInput → List Pedido
  | [], _, _ => []
  | p :: ps, id, input =>
    if p.id == id then Pedido.aplicar input p :: ps
    else p :: Pedido.findByIdAndUpdate ps id input

/-- The call `Pedido.findByIdAndDelete(id)`: the first document with the identifier is removed. -/
def Pedido.findByIdAndDelete : List Pedido → Nat → List Pedido
  | [], _ => []
  | p :: ps, id => if p.id == id then ps else p :: Pedido.findByIdAndDelete ps id

/-- The stock a product identifier currently has, if the product is stored. -/
def existenciaDe (col : List Producto) (id : Nat) : Option Int :=
  (Producto.findById col id).map (fun p => p.existencia)

/-- Total quantity the lines of an order ask of one product. -/
def cantidadDe : List Linea → Nat → Int
  | [], _ => 0
  | l :: ls, id => (if l.producto == id then l.cantidad else 0) + cantidadDe ls id

/-! ## The three loops over line items -/

/-- The loop "Verificar que el stock este disponible": the first line whose quantity exceeds
the stock of its product throws; nothing is saved. -/
def verificarStock : List Linea → List Producto → Option Err
  | [], _ => none
  | l :: ls, col =>
    match Producto.findById col l.producto with
    | none => some Err.typeError
    | some p =>
      if l.cantidad > p.existencia then some (Err.stockInsuficiente p.nombre p.existencia)
      else verificarStock ls col

/-- The loop `existencia = existencia - cantidad; save()` over the lines, one product at a
time.  A line whose product is not found throws, the earlier saves stay. -/
def descontarStock : List Linea → List Producto → Option Err × List Producto
  | [], col => (none, col)
  | l :: ls, col =>
    match Producto.findById col l.producto with
    | none => (some Err.typeError, col)
    | some p => descontarStock ls (Producto.save col p.id (p.existencia - l.cantidad))

/-- The loop `existencia = existencia + cantidad; save()` over the lines ("Regresar el
pedido").  A line whose product is not found throws, the earlier saves stay. -/
def regresarStock : List Linea → List Producto → Option Err × List Producto
  | [], col => (none, col)
  | l :: ls, col =>
    match Producto.findById col l.producto with
    | none => (some Err.typeError, col)
    | some p => regresarStock ls (Producto.save col p.id (p.existencia + l.cantidad))

/-! ## Order mutations -/

/-- The resolver `Mutation.nuevoPedido`, called by seller `ctx`; `idNuevo` is the identifier
the driver gives the new document. -/
def nuevoPedido (ctx : Nat) (idNuevo : Nat) (input : PedidoInput) (s : Almacen) :
    Except Err Pedido × Almacen :=
  match Cliente.findById s.clientes input.cliente with
  | none => (.error Err.noExisteCliente, s)
  | some cliente =>
    if cliente.vendedor ≠ ctx then (.error Err.clienteOtroVendedor, s)
    else
      match input.pedido with
      | none => (.error Err.typeError, s)
      | some lineas =>
        match verificarStock lineas s.productos with
        | some e => (.error e, s)
        | none =>
          match descontarStock lineas s.productos with
          | (some e, col) => (.error e, { s with productos := col })
          | (none, col) =>
            let pedido : Pedido :=
              { id := idNuevo, pedido := lineas, total := input.total,
                cliente := input.cliente, vendedor := ctx,
                estado := input.estado.getD Estado.pendiente }
            (.ok pedido, { s with productos := col, pedidos := s.pedidos ++ [pedido] })

/-- The resolver `Mutation.actualizarPedido`, called by seller `ctx`. -/
def actualizarPedido (ctx : Nat) (id : Nat) (input : PedidoInput) (s : Almacen) :
    Except Err (Option Pedido) × Almacen :=
  match Pedido.findById s.pedidos id with
  | none => (.error Err.pedidoNoExiste, s)
  | some pedidoExiste =>
    match Cliente.findById s.clientes input.cliente with
    | none => (.error Err.noExisteCliente, s)
    | some cliente =>
      if cliente.vendedor ≠ ctx then (.error Err.clienteOtroVendedor, s)
      else if pedidoExiste.vendedor ≠ ctx then (.error Err.pedidoOtroVendedor, s)
      else
        match input.pedido with
        | none =>
          let col := Pedido.findByIdAndUpdate s.pedidos id input
          (.ok (Pedido.findById col id), { s with pedidos := col })
        | some lineas =>
          match regresarStock pedidoExiste.pedido s.productos with
          | (some e, c1) => (.error e, { s with productos := c1 })
          | (none, c1) =>
            match verificarStock lineas c1 with
            | some e => (.error e, { s with productos := c1 })
            | none =>
              match descontarStock lineas c1 with
              | (some e, c2) => (.error e, { s with productos := c2 })
              | (none, c2) =>
                let col := Pedido.findByIdAndUpdate s.pedidos id input
                (.ok (Pedido.findById col id), { s with productos := c2, pedidos := col })

/-- The resolver `Mutation.eliminarPedido`, called by seller `ctx`; on success it returns the
identifier named in the confirmation message. -/
def eliminarPedido (ctx : Nat) (id : Nat) (s : Almacen) : Except Err Nat × Almacen :=
  match Pedido.findById s.pedidos id with
  | none => (.error Err.pedidoNoExiste, s)
  | some pedido =>
    if pedido.vendedor ≠ ctx then (.error Err.pedidoOtroVendedor, s)
    else
      match regresarStock pedido.pedido s.productos with
      | (some e, col) => (.error e, { s with productos := col })
      | (none, col) =>
        (.ok pedido.id,
          { s with productos := col, pedidos := Pedido.findByIdAndDelete s.pedidos id })

/-! ## Read queries -/

/-- The resolver `Query.obtenerClientes`: `Cliente.find()`, the context is not read. -/
def obtenerClientes (s : Almacen) : List Cliente :=
  s.clientes

/-- The resolver `Query.obtenerClientesVendedor`: `Cliente.find({ vendedor: ctx.usuario.id })`. -/
def obtenerClientesVendedor (ctx : Nat) (s : Almacen) : List Cliente :=
  s.clientes.filter (fun c => c.vendedor == ctx)

/-- The resolver `Query.obtenerCliente`. -/
def obtenerCliente (id : Nat) (ctx : Nat) (s : Almacen) : Except Err Cliente :=
  match Cliente.findById s.clientes id with
  | none => .error Err.noExisteCliente
  | some cliente =>
    if cliente.vendedor ≠ ctx then .error Err.clienteOtroVendedor else .ok cliente

/-- The call `.populate('cliente')`: the order together with the client document it names. -/
def populate (s : Almacen) (p : Pedido) : Pedido × Option Cliente :=
  (p, Cliente.findById s.clientes p.cliente)

/-- The resolver `Query.obtenerPedidos`: `Pedido.find()`, the context is not read. -/
def obtenerPedidos (s : Almacen) : List Pedido :=
  s.pedidos

/-- The resolver `Query.obtenerPedidosVendedor`. -/
def obtenerPedidosVendedor (ctx : Nat) (s : Almacen) : List (Pedido × Option Cliente) :=
  (s.pedidos.filter (fun p => p.vendedor == ctx)).map (populate s)

/-- The resolver `Query.obtenerPedido`. -/
def obtenerPedido (id : Nat) (ctx : Nat) (s : Almacen) : Except Err (Pedido × Option Cliente) :=
  match Pedido.findById s.pedidos id with
  | none => .error Err.pedidoNoExiste
  | some pedido =>
    if pedido.vendedor ≠ ctx then .error Err.pedidoOtroVendedor else .ok (populate s pedido)

/-- The resolver `Query.obtenerPedidosEstado`: `Pedido.find({ estado, vendedor })`. -/
def obtenerPedidosEstado (estado : Estado) (ctx : Nat) (s : Almacen) : List Pedido :=
  s.pedidos.filter (fun p => p.estado == estado && p.vendedor == ctx)

/-! ## Ranking aggregations -/

/-- One output document of the pipeline: the group key, the summed total and the documents
`$lookup` joined to it. -/
structure Grupo (α : Type) where
  id : Nat
  total : Int
  unidos : List α
  deriving DecidableEq, Repr

/-- The stage `$match: { estado: 'Completado' }`. -/
def matchCompletado (col : List Pedido) : List Pedido :=
  col.filter (fun p => p.estado == Estado.completado)

/-- Adds one order total to the group of its key, opening the group if it is new. -/
def acumular (k : Nat) (t : Int) : List (Nat × Int) → List (Nat × Int)
  | [] => [(k, t)]
  | g :: gs => if g.1 == k then (g.1, g.2 + t) :: gs else g :: acumular k t gs

/-- The stage `$group: { _id: clave, total: { $sum: '$total' } }`.  Groups come out in the
order their keys first occur; the database itself promises no order. -/
def group (clave : Pedido → Nat) (col : List Pedido) : List (Nat × Int) :=
  col.foldl (fun gs p => acumular (clave p) p.total gs) []

/-- The stage `$lookup` on `_id`: every group keeps its key and total and gets the matching
documents of the other collection. -/
def lookup {α : Type} (idDe : α → Nat) (col : List α) (gs : List (Nat × Int)) :
    List (Grupo α) :=
  gs.map (fun g => { id := g.1, total := g.2, unidos := col.filter (fun d => idDe d == g.1) })

/-- The stage `$sort: { total: -1 }`. -/
def sortTotal {α : Type} (gs : List (Grupo α)) : List (Grupo α) :=
  gs.insertionSort (fun a b => a.total ≥ b.total)

/-- The resolver `Query.mejoresClientes`: match, group, lookup, `$limit: 10`, then `$sort`. -/
def mejoresClientes (s : Almacen) : List (Grupo Cliente) :=
  sortTotal
    ((lookup (fun c => c.id) s.clientes
      (group (fun p => p.cliente) (matchCompletado s.pedidos))).take 10)

/-- The resolver `Query.mejoresVendedores`: match, group, lookup, `$limit: 3`, then `$sort`. -/
def mejoresVendedores (s : Almacen) : List (Grupo Usuario) :=
  sortTotal
    ((lookup (fun u => u.id) s.usuarios
      (group (fun p => p.vendedor) (matchCompletado s.pedidos))).take 3)

/-! ## Bookkeeping used to state the properties -/

/-- Total quantity of one product over the lines of all stored orders. -/
def comprometido : List Pedido → Nat → Int
  | [], _ => 0
  | p :: ps, id => cantidadDe p.pedido id + comprometido ps id

/-- Stock of a product plus what the stored orders hold of it. -/
def balance (s : Almacen) (id : Nat) : Option Int :=
  (existenciaDe s.productos id).map (fun e => e + comprometido s.pedidos id)

/-- The stored client an order names, if any, is owned by the seller of the order. -/
def clientePropio (clientes : List Cliente) (p : Pedido) : Bool :=
  match Cliente.findById clientes p.cliente with
  | none => true
  | some c => c.vendedor == p.vendedor

/-- Every stored order names a client of its own seller (or a client no longer stored): the
relation `nuevoPedido` and `actualizarPedido` check before they write an order. -/
def pedidosConClientePropio (s : Almacen) : Prop :=
  ∀ p ∈ s.pedidos, clientePropio s.clientes p = true

instance (s : Almacen) : Decidable (pedidosConClientePropio s) := by
  unfold pedidosConClientePropio
  infer_instance

/-! ## Concrete stores used in the examples -/

/-- A store with one product of stock 10, one client registered by seller 1 and no order. -/
def tienda : Almacen :=
  { productos := [⟨1, "P", 10⟩], clientes := [⟨1, 1⟩], pedidos := [],
    usuarios := [⟨1⟩, ⟨2⟩] }

/-- The store `tienda` after seller 1 ordered 4 units of the product for client 1. -/
def tiendaConPedido : Almacen :=
  { productos := [⟨1, "P", 6⟩], clientes := [⟨1, 1⟩],
    pedidos := [⟨100, [⟨1, 4⟩], 40, 1, 1, Estado.pendiente⟩],
    usuarios := [⟨1⟩, ⟨2⟩] }

/-- The store `tiendaConPedido` after client 1 was removed from the `Cliente` collection
(`eliminarCliente` leaves the orders of the client in place). -/
def tiendaSinCliente : Almacen :=
  { productos := [⟨1, "P", 6⟩], clientes := [],
    pedidos := [⟨100, [⟨1, 4⟩], 40, 1, 1, Estado.pendiente⟩],
    usuarios := [⟨1⟩, ⟨2⟩] }

/-- The store `tiendaConPedido` with a second line in the order, naming product 2, after
product 2 was removed from the `Producto` collection (`eliminarProducto` leaves the orders
naming the product in place). -/
def tiendaSinProducto : Almacen :=
  { productos := [⟨1, "P", 6⟩], clientes := [⟨1, 1⟩],
    pedidos := [⟨100, [⟨1, 4⟩, ⟨2, 1⟩], 50, 1, 1, Estado.pendiente⟩],
    usuarios := [⟨1⟩, ⟨2⟩] }

/-- A store in which order 100 of seller 2 names client 1, a client registered by seller 1. -/
def tiendaClienteAjeno : Almacen :=
  { productos := [⟨1, "P", 6⟩], clientes := [⟨1, 1⟩],
    pedidos := [⟨100, [⟨1, 4⟩], 40, 1, 2, Estado.pendiente⟩],
    usuarios := [⟨1⟩, ⟨2⟩] }

/-- A store with eleven completed orders, one per client 1 to 11, sold by four sellers.  The
last order, of client 11 and seller 4, has by far the greatest total. -/
def tiendaRanking : Almacen :=
  { productos := []
    clientes := [⟨1, 1⟩, ⟨2, 2⟩, ⟨3, 3⟩, ⟨4, 4⟩, ⟨5, 1⟩, ⟨6, 2⟩, ⟨7, 3⟩, ⟨8, 4⟩, ⟨9, 1⟩,
      ⟨10, 2⟩, ⟨11, 4⟩]
    pedidos :=
      [⟨1, [], 10, 1, 1, Estado.completado⟩, ⟨2, [], 20, 2, 2, Estado.completado⟩,
       ⟨3, [], 30, 3, 3, Estado.completado⟩, ⟨4, [], 40, 4, 4, Estado.completado⟩,
       ⟨5, [], 50, 5, 1, Estado.completado⟩, ⟨6, [], 60, 6, 2, Estado.completado⟩,
       ⟨7, [], 70, 7, 3, Estado.completado⟩, ⟨8, [], 80, 8, 4, Estado.completado⟩,
       ⟨9, [], 90, 9, 1, Estado.completado⟩, ⟨10, [], 100, 10, 2, Estado.completado⟩,
       ⟨11, [], 1000, 11, 4, Estado.completado⟩]
    usuarios := [⟨1⟩, ⟨2⟩, ⟨3⟩, ⟨4⟩] }

/-- Sum of the totals of the completed orders whose key (client or seller) is `k`. -/
def totalCompletado (clave : Pedido → Nat) (col : List Pedido) (k : Nat) : Int :=
  (((matchCompletado col).filter (fun p => clave p == k)).map (fun p => p.total)).sum

/-! ## Lemmas on the product collection -/

theorem Producto.findById_id {col : List Producto} {id : Nat} {p : Producto}
    (h : Producto.findById col id = some p) : p.id = id := by
  have := List.find?_some h
  simpa using this

theorem Producto.findById_save (col : List Producto) (id : Nat) (e : Int) (k : Nat) :
    Producto.findById (Producto.save col id e) k =
      (Producto.findById col k).map
        (fun q => if q.id == id then { q with existencia := e } else q) := by
  have hcomp : ((fun p : Producto => p.id == k) ∘
      fun q : Producto => if q.id == id then { q with existencia := e } else q) =
      fun p : Producto => p.id == k := by
    funext q
    by_cases hq : q.id = id <;> simp [Function.comp, hq]
  unfold Producto.findById Producto.save
  rw [List.find?_map, hcomp]

theorem existenciaDe_save (col : List Producto) (id : Nat) (e : Int) (k : Nat) :
    existenciaDe (Producto.save col id e) k =
      if k = id then (existenciaDe col k).map (fun _ => e) else existenciaDe col k := by
  unfold existenciaDe
  rw [Producto.findById_save]
  cases h : Producto.findById col k with
  | none => simp
  | some q =>
    have hq := Producto.findById_id h
    by_cases hk : k = id
    · simp [hq, hk]
    · simp [hq, hk]

theorem Producto.isSome_findById_save (col : List Producto) (id : Nat) (e : Int) (k : Nat) :
    (Producto.findById (Producto.save col id e) k).isSome = (Producto.findById col k).isSome := by
  rw [Producto.findById_save]
  cases Producto.findById col k <;> rfl

/-! ## Lemmas on the three loops -/

theorem regresarStock_isSome (ls : List Linea) :
    ∀ (col : List Producto) (k : Nat),
      (Producto.findById (regresarStock ls col).2 k).isSome = (Producto.findById col k).isSome := by
  induction ls with
  | nil => intro col k; rfl
  | cons l ls ih =>
    intro col k
    unfold regresarStock
    cases h : Producto.findById col l.producto with
    | none => rfl
    | some p =>
      simp only []
      rw [ih, Producto.isSome_findById_save]

theorem descontarStock_isSome (ls : List Linea) :
    ∀ (col : List Producto) (k : Nat),
      (Producto.findById (descontarStock ls col).2 k).isSome = (Producto.findById col k).isSome := by
  induction ls with
  | nil => intro col k; rfl
  | cons l ls ih =>
    intro col k
    unfold descontarStock
    cases h : Producto.findById col l.producto with
    | none => rfl
    | some p =>
      simp only []
      rw [ih, Producto.isSome_findById_save]

/-- When every line names a stored product the restore loop does not throw and credits each
product with the total quantity of the lines naming it. -/
theorem regresarStock_ok (ls : List Linea) :
    ∀ col : List Producto, (∀ l ∈ ls, (Producto.findById col l.producto).isSome) →
      (regresarStock ls col).1 = none ∧
      ∀ k, existenciaDe (regresarStock ls col).2 k =
        (existenciaDe col k).map (fun e => e + cantidadDe ls k) := by
  induction ls with
  | nil =>
    intro col _
    refine ⟨rfl, fun k => ?_⟩
    simp [regresarStock, cantidadDe]
  | cons l ls ih =>
    intro col hex
    have hl := hex l (List.mem_cons_self _ _)
    obtain ⟨p, hp⟩ := Option.isSome_iff_exists.mp hl
    have hid := Producto.findById_id hp
    have hrest : ∀ l' ∈ ls,
        (Producto.findById (Producto.save col p.id (p.existencia + l.cantidad))
          l'.producto).isSome := by
      intro l' hl'
      rw [Producto.isSome_findById_save]
      exact hex l' (List.mem_cons_of_mem _ hl')
    obtain ⟨h1, h2⟩ := ih _ hrest
    have hstep : regresarStock (l :: ls) col =
        regresarStock ls (Producto.save col p.id (p.existencia + l.cantidad)) := by
      rw [regresarStock, hp]
    rw [hstep]
    refine ⟨h1, fun k => ?_⟩
    rw [h2 k, existenciaDe_save]
    by_cases hk : k = p.id
    · subst hk
      have hf : Producto.findById col p.id = some p := by rw [hid]; exact hp
      simp [existenciaDe, hf, cantidadDe, hid.symm, add_assoc]
    · have hkk : ¬ l.producto = k := fun h => hk (by rw [← h, hid])
      simp [cantidadDe, hkk, hk]

/-- When every line names a stored product the debit loop does not throw and debits each
product by the total quantity of the lines naming it. -/
theorem descontarStock_ok (ls : List Linea) :
    ∀ col : List Producto, (∀ l ∈ ls, (Producto.findById col l.producto).isSome) →
      (descontarStock ls col).1 = none ∧
      ∀ k, existenciaDe (descontarStock ls col).2 k =
        (existenciaDe col k).map (fun e => e - cantidadDe ls k) := by
  induction ls with
  | nil =>
    intro col _
    refine ⟨rfl, fun k => ?_⟩
    simp [descontarStock, cantidadDe]
  | cons l ls ih =>
    intro col hex
    have hl := hex l (List.mem_cons_self _ _)
    obtain ⟨p, hp⟩ := Option.isSome_iff_exists.mp hl
    have hid := Producto.findById_id hp
    have hrest : ∀ l' ∈ ls,
        (Producto.findById (Producto.save col p.id (p.existencia - l.cantidad))
          l'.producto).isSome := by
      intro l' hl'
      rw [Producto.isSome_findById_save]
      exact hex l' (List.mem_cons_of_mem _ hl')
    obtain ⟨h1, h2⟩ := ih _ hrest
    have hstep : descontarStock (l :: ls) col =
        descontarStock ls (Producto.save col p.id (p.existencia - l.cantidad)) := by
      rw [descontarStock, hp]
    rw [hstep]
    refine ⟨h1, fun k => ?_⟩
    rw [h2 k, existenciaDe_save]
    by_cases hk : k = p.id
    · subst hk
      have hf : Producto.findById col p.id = some p := by rw [hid]; exact hp
      simp [existenciaDe, hf, cantidadDe, hid.symm, sub_sub]
    · have hkk : ¬ l.producto = k := fun h => hk (by rw [← h, hid])
      simp [cantidadDe, hkk, hk]

/-- The validation loop passes exactly when every line names a stored product whose stock
covers the quantity of that line. -/
theorem verificarStock_eq_none (ls : List Linea) (col : List Producto) :
    verificarStock ls col = none ↔
      ∀ l ∈ ls, ∃ p, Producto.findById col l.producto = some p ∧ l.cantidad ≤ p.existencia := by
  induction ls with
  | nil => simp [verificarStock]
  | cons l ls ih =>
    unfold verificarStock
    cases h : Producto.findById col l.producto with
    | none => simp [h]
    | some p =>
      by_cases hc : l.cantidad > p.existencia
      · simp [h, hc]
      · simp [h, hc, ih, not_lt.mp hc]

/-- The validation loop only throws the insufficient-stock error when every line names a
stored product. -/
theorem verificarStock_clase (ls : List Linea) (col : List Producto) (e : Err)
    (hex : ∀ l ∈ ls, (Producto.findById col l.producto).isSome)
    (h : verificarStock ls col = some e) : ∃ n x, e = Err.stockInsuficiente n x := by
  induction ls with
  | nil => simp [verificarStock] at h
  | cons l ls ih =>
    have hl := hex l (List.mem_cons_self _ _)
    obtain ⟨p, hp⟩ := Option.isSome_iff_exists.mp hl
    rw [verificarStock, hp] at h
    by_cases hc : l.cantidad > p.existencia
    · simp only [hc, if_true, Option.some.injEq] at h
      exact ⟨_, _, h.symm⟩
    · simp only [hc, if_false] at h
      exact ih (fun l' hl' => hex l' (List.mem_cons_of_mem _ hl')) h

/-! ## The shape of a successful `nuevoPedido` -/

theorem verificarStock_isSome {ls : List Linea} {col : List Producto}
    (h : verificarStock ls col = none) :
    ∀ l ∈ ls, (Producto.findById col l.producto).isSome := by
  intro l hl
  obtain ⟨p, hp, _⟩ := (verificarStock_eq_none ls col).mp h l hl
  simp [hp]

/-- After its two checks on the client and a validation loop that passes, `nuevoPedido`
debits the lines and stores the order. -/
theorem nuevoPedido_exito (ctx idNuevo : Nat) (input : PedidoInput) (s : Almacen)
    (lineas : List Linea) (cliente : Cliente)
    (hc : Cliente.findById s.clientes input.cliente = some cliente)
    (hv : cliente.vendedor = ctx) (hp : input.pedido = some lineas)
    (hver : verificarStock lineas s.productos = none) :
    nuevoPedido ctx idNuevo input s =
      (.ok ⟨idNuevo, lineas, input.total, input.cliente, ctx,
          input.estado.getD Estado.pendiente⟩,
        { s with
          productos := (descontarStock lineas s.productos).2
          pedidos := s.pedidos ++ [⟨idNuevo, lineas, input.total, input.cliente, ctx,
            input.estado.getD Estado.pendiente⟩] }) := by
  have h1 := (descontarStock_ok lineas s.productos (verificarStock_isSome hver)).1
  unfold nuevoPedido
  simp only [hc, hv, hp, hver, ne_eq, not_true_eq_false, if_false]
  rcases hd : descontarStock lineas s.productos with ⟨e, col⟩
  rw [hd] at h1
  simp only at h1
  subst h1
  rfl

/-- A `nuevoPedido` that returns an order went through both client checks and a validation
loop that passed. -/
theorem nuevoPedido_inv (ctx idNuevo : Nat) (input : PedidoInput) (s s1 : Almacen)
    (pedido : Pedido) (h : nuevoPedido ctx idNuevo input s = (.ok pedido, s1)) :
    ∃ cliente lineas, Cliente.findById s.clientes input.cliente = some cliente ∧
      cliente.vendedor = ctx ∧ input.pedido = some lineas ∧
      verificarStock lineas s.productos = none := by
  unfold nuevoPedido at h
  cases hc : Cliente.findById s.clientes input.cliente with
  | none => simp [hc] at h
  | some cliente =>
    by_cases hv : cliente.vendedor = ctx
    · cases hp : input.pedido with
      | none => simp [hc, hv, hp] at h
      | some lineas =>
        cases hver : verificarStock lineas s.productos with
        | none => exact ⟨cliente, lineas, rfl, hv, rfl, hver⟩
        | some e => simp [hc, hv, hp, hver] at h
    · simp [hc, hv] at h

/-- Whenever `nuevoPedido` throws, the store is left as it was. -/
theorem nuevoPedido_error (ctx idNuevo : Nat) (input : PedidoInput) (s s1 : Almacen)
    (e : Err) (h : nuevoPedido ctx idNuevo input s = (.error e, s1)) : s1 = s := by
  unfold nuevoPedido at h
  cases hc : Cliente.findById s.clientes input.cliente with
  | none => simp [hc] at h; exact h.2.symm
  | some cliente =>
    by_cases hv : cliente.vendedor = ctx
    · cases hp : input.pedido with
      | none => simp [hc, hv, hp] at h; exact h.2.symm
      | some lineas =>
        cases hver : verificarStock lineas s.productos with
        | none =>
          have h1 := (descontarStock_ok lineas s.productos (verificarStock_isSome hver)).1
          rcases hd : descontarStock lineas s.productos with ⟨e1, col⟩
          rw [hd] at h1
          simp only at h1
          subst h1
          simp [hc, hv, hp, hver, hd] at h
        | some e1 => simp [hc, hv, hp, hver] at h; exact h.2.symm
    · simp [hc, hv] at h; exact h.2.symm

/-! ## The shape of a successful `eliminarPedido` -/

theorem Pedido.findById_append_nuevo (col : List Pedido) (p : Pedido)
    (h : Pedido.findById col p.id = none) : Pedido.findById (col ++ [p]) p.id = some p := by
  unfold Pedido.findById at h ⊢
  rw [List.find?_append, h]
  simp

theorem Pedido.findByIdAndDelete_append_nuevo (col : List Pedido) (p : Pedido)
    (h : Pedido.findById col p.id = none) :
    Pedido.findByIdAndDelete (col ++ [p]) p.id = col := by
  induction col with
  | nil => simp [Pedido.findByIdAndDelete]
  | cons q qs ih =>
    unfold Pedido.findById at h ih
    by_cases hq : q.id = p.id
    · simp [List.find?_cons, hq] at h
    · have hq2 : (q.id == p.id) = false := by simpa using hq
      rw [List.find?_cons, hq2] at h
      have hstep : Pedido.findByIdAndDelete (q :: qs ++ [p]) p.id =
          q :: Pedido.findByIdAndDelete (qs ++ [p]) p.id := by
        show Pedido.findByIdAndDelete (q :: (qs ++ [p])) p.id = _
        rw [Pedido.findByIdAndDelete, hq2]
        rfl
      rw [hstep, ih h]

/-- When the order is stored, owned by the caller and names only stored products,
`eliminarPedido` credits its lines and removes it. -/
theorem eliminarPedido_exito (ctx id : Nat) (s : Almacen) (pedido : Pedido)
    (ho : Pedido.findById s.pedidos id = some pedido) (hv : pedido.vendedor = ctx)
    (hex : ∀ l ∈ pedido.pedido, (Producto.findById s.productos l.producto).isSome) :
    eliminarPedido ctx id s =
      (.ok pedido.id,
        { s with
          productos := (regresarStock pedido.pedido s.productos).2
          pedidos := Pedido.findByIdAndDelete s.pedidos id }) := by
  have h1 := (regresarStock_ok pedido.pedido s.productos hex).1
  unfold eliminarPedido
  simp only [ho, hv, ne_eq, not_true_eq_false, if_false]
  rcases hd : regresarStock pedido.pedido s.productos with ⟨e, col⟩
  rw [hd] at h1
  simp only at h1
  subst h1
  rfl

/-! ## Claims on `nuevoPedido` -/

/-- C1. Non-negativity fails on the code: from a store whose only product has stock 10, one
`nuevoPedido` whose two lines each ask 6 units of that product passes the validation loop
(6 is not more than 10, twice), succeeds, and leaves the stock at -2. -/
theorem nuevoPedido_existencia_negativa :
    (∀ p ∈ tienda.productos, 0 ≤ p.existencia) ∧
    (∀ l ∈ [(⟨1, 6⟩ : Linea), ⟨1, 6⟩], 0 < l.cantidad) ∧
    (nuevoPedido 1 100 ⟨some [⟨1, 6⟩, ⟨1, 6⟩], 60, 1, none⟩ tienda).1 =
      .ok ⟨100, [⟨1, 6⟩, ⟨1, 6⟩], 60, 1, 1, Estado.pendiente⟩ ∧
    existenciaDe
      (nuevoPedido 1 100 ⟨some [⟨1, 6⟩, ⟨1, 6⟩], 60, 1, none⟩ tienda).2.productos 1 =
      some (-2) := by
  refine ⟨by decide, by decide, rfl, rfl⟩

/-- C2. Stock/order consistency fails on the code: the stored order holds 4 units and the
stock is 6; `actualizarPedido` asking 20 units credits the 4 units back, then throws in its
validation loop.  The order is still stored with its 4 units and the stock stays at 10, so
stock plus ordered quantity went from 10 to 14. -/
theorem actualizarPedido_rompe_balance :
    balance tiendaConPedido 1 = some 10 ∧
    (actualizarPedido 1 100 ⟨some [⟨1, 20⟩], 200, 1, none⟩ tiendaConPedido).1 =
      .error (Err.stockInsuficiente "P" 10) ∧
    (actualizarPedido 1 100 ⟨some [⟨1, 20⟩], 200, 1, none⟩ tiendaConPedido).2.pedidos =
      tiendaConPedido.pedidos ∧
    balance (actualizarPedido 1 100 ⟨some [⟨1, 20⟩], 200, 1, none⟩ tiendaConPedido).2 1 =
      some 14 := by
  refine ⟨rfl, rfl, rfl, rfl⟩

/-- C3 as stated fails: a line asks 20 units of a product whose stock is 10, but the client
named by the input is not stored, so the call throws "No existe el cliente" and not the
insufficient-stock error.  Likewise, with a stored client of the caller, when an earlier
line names a product that is not stored the call throws the `TypeError` of reading
`existencia` of `null`. -/
theorem nuevoPedido_rechazo_otro_error :
    (∃ l ∈ [(⟨1, 20⟩ : Linea)], ∃ p, Producto.findById tienda.productos l.producto = some p ∧
      l.cantidad > p.existencia) ∧
    (nuevoPedido 1 100 ⟨some [⟨1, 20⟩], 200, 9, none⟩ tienda).1 =
      .error Err.noExisteCliente ∧
    Err.noExisteCliente.clase ≠ Clase.insufficientStock ∧
    (∃ l ∈ [(⟨2, 1⟩ : Linea), ⟨1, 20⟩], ∃ p,
      Producto.findById tienda.productos l.producto = some p ∧ l.cantidad > p.existencia) ∧
    (nuevoPedido 1 100 ⟨some [⟨2, 1⟩, ⟨1, 20⟩], 200, 1, none⟩ tienda).1 =
      .error Err.typeError ∧
    Err.typeError.clase ≠ Clase.insufficientStock := by
  refine ⟨⟨⟨1, 20⟩, by simp, ⟨1, "P", 10⟩, rfl, by decide⟩, rfl, by decide,
    ⟨⟨1, 20⟩, by simp, ⟨1, "P", 10⟩, rfl, by decide⟩, rfl, by decide⟩

/-- C3, amended. A `nuevoPedido` call in which some line asks more than the stock of its
product throws and leaves the whole store as it was (no order stored, every stock
unchanged); the error is the insufficient-stock one when the client is stored and owned by
the caller and every line names a stored product. -/
theorem nuevoPedido_rechaza (ctx idNuevo : Nat) (input : PedidoInput) (s : Almacen)
    (lineas : List Linea) (hp : input.pedido = some lineas)
    (hex : ∃ l ∈ lineas, ∃ p, Producto.findById s.productos l.producto = some p ∧
      l.cantidad > p.existencia) :
    (∃ e, nuevoPedido ctx idNuevo input s = (.error e, s)) ∧
    (∀ cliente, Cliente.findById s.clientes input.cliente = some cliente →
      cliente.vendedor = ctx →
      (∀ l ∈ lineas, (Producto.findById s.productos l.producto).isSome) →
      ∃ n x, nuevoPedido ctx idNuevo input s = (.error (Err.stockInsuficiente n x), s)) := by
  have hver : verificarStock lineas s.productos ≠ none := by
    intro h0
    obtain ⟨l, hl, p, hf, hgt⟩ := hex
    obtain ⟨q, hq, hle⟩ := (verificarStock_eq_none lineas s.productos).mp h0 l hl
    rw [hf] at hq
    cases hq
    exact absurd hle (not_le.mpr hgt)
  have hfalla : ∃ e, nuevoPedido ctx idNuevo input s = (.error e, s) := by
    rcases hr : nuevoPedido ctx idNuevo input s with ⟨r, s1⟩
    cases r with
    | error e =>
      have := nuevoPedido_error ctx idNuevo input s s1 e hr
      subst this
      exact ⟨e, rfl⟩
    | ok pedido =>
      obtain ⟨_, lineas2, _, _, hp2, hv2⟩ := nuevoPedido_inv ctx idNuevo input s s1 pedido hr
      rw [hp] at hp2
      cases hp2
      exact absurd hv2 hver
  refine ⟨hfalla, ?_⟩
  intro cliente hc hv hprod
  obtain ⟨e, he⟩ := Option.ne_none_iff_exists.mp hver
  obtain ⟨n, x, hnx⟩ := verificarStock_clase lineas s.productos e hprod he.symm
  refine ⟨n, x, ?_⟩
  unfold nuevoPedido
  simp only [hc, hv, hp, ← he, hnx, ne_eq, not_true_eq_false, if_false]

/-- C3, amended, at the spec's scenario 4: 20 units of a product with stock 10. -/
theorem nuevoPedido_rechaza_witness :
    (∃ e, nuevoPedido 1 100 ⟨some [⟨1, 20⟩], 200, 1, none⟩ tienda = (.error e, tienda)) ∧
    ∃ n x, nuevoPedido 1 100 ⟨some [⟨1, 20⟩], 200, 1, none⟩ tienda =
      (.error (Err.stockInsuficiente n x), tienda) :=
  have h := nuevoPedido_rechaza 1 100 ⟨some [⟨1, 20⟩], 200, 1, none⟩ tienda [⟨1, 20⟩] rfl
    ⟨⟨1, 20⟩, by simp, ⟨1, "P", 10⟩, rfl, by decide⟩
  ⟨h.1, h.2 ⟨1, 1⟩ rfl rfl (by decide)⟩

/-- C4. Create postcondition: when the client is stored and owned by the caller and every
line asks at most the current stock of its (stored) product, `nuevoPedido` succeeds, the
order is stored with the caller as seller and the given lines, every product's stock goes
down by exactly the total quantity of the lines naming it, and a product no line names
keeps its stock. -/
theorem nuevoPedido_postcondicion (ctx idNuevo : Nat) (input : PedidoInput) (s : Almacen)
    (lineas : List Linea) (cliente : Cliente)
    (hc : Cliente.findById s.clientes input.cliente = some cliente)
    (hv : cliente.vendedor = ctx) (hp : input.pedido = some lineas)
    (hstock : ∀ l ∈ lineas, ∃ p, Producto.findById s.productos l.producto = some p ∧
      l.cantidad ≤ p.existencia) :
    ∃ pedido s1, nuevoPedido ctx idNuevo input s = (.ok pedido, s1) ∧
      pedido.id = idNuevo ∧ pedido.vendedor = ctx ∧ pedido.cliente = input.cliente ∧
      pedido.pedido = lineas ∧
      s1.pedidos = s.pedidos ++ [pedido] ∧ s1.clientes = s.clientes ∧
      (∀ k, existenciaDe s1.productos k =
        (existenciaDe s.productos k).map (fun e => e - cantidadDe lineas k)) ∧
      (∀ k, (∀ l ∈ lineas, l.producto ≠ k) →
        existenciaDe s1.productos k = existenciaDe s.productos k) := by
  have hver := (verificarStock_eq_none lineas s.productos).mpr hstock
  have hd := (descontarStock_ok lineas s.productos (verificarStock_isSome hver)).2
  refine ⟨_, _, nuevoPedido_exito ctx idNuevo input s lineas cliente hc hv hp hver,
    rfl, rfl, rfl, rfl, rfl, rfl, hd, ?_⟩
  intro k hk
  have hcero : cantidadDe lineas k = 0 := by
    clear hstock hver hd hp
    induction lineas with
    | nil => rfl
    | cons l ls ih =>
      have h1 : l.producto ≠ k := hk l (List.mem_cons_self _ _)
      have h2 := ih (fun l' hl' => hk l' (List.mem_cons_of_mem _ hl'))
      simp [cantidadDe, h1, h2]
  show existenciaDe (descontarStock lineas s.productos).2 k = _
  rw [hd k, hcero]
  simp

/-- C4 at the spec's scenario 1: 4 units of a product with stock 10 leave stock 6. -/
theorem nuevoPedido_postcondicion_witness :
    ∃ pedido s1, nuevoPedido 1 100 ⟨some [⟨1, 4⟩], 40, 1, none⟩ tienda = (.ok pedido, s1) ∧
      pedido.id = 100 ∧ pedido.vendedor = 1 ∧ pedido.cliente = 1 ∧
      pedido.pedido = [⟨1, 4⟩] ∧
      s1.pedidos = tienda.pedidos ++ [pedido] ∧ s1.clientes = tienda.clientes ∧
      (∀ k, existenciaDe s1.productos k =
        (existenciaDe tienda.productos k).map (fun e => e - cantidadDe [⟨1, 4⟩] k)) ∧
      (∀ k, (∀ l ∈ [(⟨1, 4⟩ : Linea)], l.producto ≠ k) →
        existenciaDe s1.productos k = existenciaDe tienda.productos k) :=
  nuevoPedido_postcondicion 1 100 ⟨some [⟨1, 4⟩], 40, 1, none⟩ tienda [⟨1, 4⟩] ⟨1, 1⟩
    rfl rfl rfl (by
      intro l hl
      simp only [List.mem_singleton] at hl
      subst hl
      exact ⟨⟨1, "P", 10⟩, rfl, by decide⟩)

/-! ## Claims on `eliminarPedido` after `nuevoPedido` -/

/-- C5. Conservation: after a `nuevoPedido` that succeeds (the new document getting an
identifier no stored order has), `eliminarPedido` of the created order by the same seller
succeeds, every product's stock is back at its value before the create, and the stored
orders are those of before. -/
theorem crear_eliminar_conserva (ctx idNuevo : Nat) (input : PedidoInput) (s s1 : Almacen)
    (pedido : Pedido) (hnuevo : Pedido.findById s.pedidos idNuevo = none)
    (h : nuevoPedido ctx idNuevo input s = (.ok pedido, s1)) :
    ∃ s2, eliminarPedido ctx pedido.id s1 = (.ok pedido.id, s2) ∧
      (∀ k, existenciaDe s2.productos k = existenciaDe s.productos k) ∧
      s2.pedidos = s.pedidos ∧ s2.clientes = s.clientes := by
  obtain ⟨cliente, lineas, hc, hv, hp, hver⟩ := nuevoPedido_inv ctx idNuevo input s s1 pedido h
  rw [nuevoPedido_exito ctx idNuevo input s lineas cliente hc hv hp hver] at h
  simp only [Prod.mk.injEq, Except.ok.injEq] at h
  obtain ⟨hped, hs1⟩ := h
  subst hped
  subst hs1
  have hex0 := verificarStock_isSome hver
  have hex : ∀ l ∈ lineas,
      (Producto.findById (descontarStock lineas s.productos).2 l.producto).isSome := by
    intro l hl
    rw [descontarStock_isSome]
    exact hex0 l hl
  refine ⟨_, eliminarPedido_exito ctx idNuevo _ _
    (Pedido.findById_append_nuevo s.pedidos _ hnuevo) rfl hex, ?_, ?_, rfl⟩
  · intro k
    show existenciaDe (regresarStock lineas (descontarStock lineas s.productos).2).2 k = _
    rw [(regresarStock_ok lineas _ hex).2 k, (descontarStock_ok lineas _ hex0).2 k]
    cases existenciaDe s.productos k <;> simp
  · exact Pedido.findByIdAndDelete_append_nuevo s.pedidos _ hnuevo

/-- C5 at the spec's scenarios 1 and 3: 4 units ordered, then the order deleted. -/
theorem crear_eliminar_conserva_witness :
    ∃ s2, eliminarPedido 1 100 (nuevoPedido 1 100 ⟨some [⟨1, 4⟩], 40, 1, none⟩ tienda).2 =
        (.ok 100, s2) ∧
      (∀ k, existenciaDe s2.productos k = existenciaDe tienda.productos k) ∧
      s2.pedidos = tienda.pedidos ∧ s2.clientes = tienda.clientes :=
  crear_eliminar_conserva 1 100 ⟨some [⟨1, 4⟩], 40, 1, none⟩ tienda
    (nuevoPedido 1 100 ⟨some [⟨1, 4⟩], 40, 1, none⟩ tienda).2
    ⟨100, [⟨1, 4⟩], 40, 1, 1, Estado.pendiente⟩ rfl rfl

/-! ## Claims on `actualizarPedido` -/

/-- C6 as stated fails: the order is stored and owned by the caller, but its client is no
longer stored.  `actualizarPedido` throws "No existe el cliente" before touching any stock
(stock stays 6), while `eliminarPedido` credits the 4 units (stock 10) and the following
`nuevoPedido` for the same client throws without debiting.  It also fails when the client
is stored but the second line of the order names a product that is no longer stored: both
`actualizarPedido` and `eliminarPedido` credit the first line and throw on the second
(stock 10), and the following `nuevoPedido` of one unit succeeds (stock 9). -/
theorem actualizar_no_equivale :
    (∃ pe, Pedido.findById tiendaSinCliente.pedidos 100 = some pe ∧ pe.vendedor = 1 ∧
      pe.cliente = 1) ∧
    existenciaDe
      (actualizarPedido 1 100 ⟨some [⟨1, 1⟩], 10, 1, none⟩ tiendaSinCliente).2.productos 1 =
      some 6 ∧
    existenciaDe
      (nuevoPedido 1 101 ⟨some [⟨1, 1⟩], 10, 1, none⟩
        (eliminarPedido 1 100 tiendaSinCliente).2).2.productos 1 = some 10 ∧
    (∃ pe, Pedido.findById tiendaSinProducto.pedidos 100 = some pe ∧ pe.vendedor = 1 ∧
      pe.cliente = 1) ∧
    existenciaDe
      (actualizarPedido 1 100 ⟨some [⟨1, 1⟩], 10, 1, none⟩ tiendaSinProducto).2.productos 1 =
      some 10 ∧
    existenciaDe
      (nuevoPedido 1 101 ⟨some [⟨1, 1⟩], 10, 1, none⟩
        (eliminarPedido 1 100 tiendaSinProducto).2).2.productos 1 = some 9 := by
  refine ⟨⟨_, rfl, rfl, rfl⟩, rfl, rfl, ⟨_, rfl, rfl, rfl⟩, rfl, rfl⟩

/-- C6, amended. For a stored order owned by the caller whose lines all name stored
products, and an input with a line list whose client is stored and owned by the caller,
the products after `actualizarPedido` are exactly the products after `eliminarPedido` of the
order followed by `nuevoPedido` with the same input by the same seller. -/
theorem actualizar_equivale (ctx id idNuevo : Nat) (input : PedidoInput) (s : Almacen)
    (lineas : List Linea) (pe : Pedido) (cliente : Cliente)
    (hp : input.pedido = some lineas)
    (ho : Pedido.findById s.pedidos id = some pe) (hov : pe.vendedor = ctx)
    (hc : Cliente.findById s.clientes input.cliente = some cliente)
    (hcv : cliente.vendedor = ctx)
    (hprod : ∀ l ∈ pe.pedido, (Producto.findById s.productos l.producto).isSome) :
    (actualizarPedido ctx id input s).2.productos =
      (nuevoPedido ctx idNuevo input (eliminarPedido ctx id s).2).2.productos := by
  have h1 := (regresarStock_ok pe.pedido s.productos hprod).1
  rw [eliminarPedido_exito ctx id s pe ho hov hprod]
  unfold actualizarPedido
  simp only [ho, hc, hcv, hov, hp, ne_eq, not_true_eq_false, if_false]
  rcases hr : regresarStock pe.pedido s.productos with ⟨e1, c1⟩
  rw [hr] at h1
  simp only at h1
  subst h1
  simp only []
  cases hver : verificarStock lineas c1 with
  | some e =>
    unfold nuevoPedido
    simp only [hc, hcv, hp, hver, ne_eq, not_true_eq_false, if_false]
  | none =>
    rw [nuevoPedido_exito ctx idNuevo input
      { productos := c1, clientes := s.clientes,
        pedidos := Pedido.findByIdAndDelete s.pedidos id, usuarios := s.usuarios }
      lineas cliente hc hcv hp hver]
    simp only []
    rcases hd : descontarStock lineas c1 with ⟨e2, c2⟩
    cases e2 <;> rfl

/-- C6, amended, at the spec's scenario 2: the order of 4 units is revised to 6 units. -/
theorem actualizar_equivale_witness :
    (actualizarPedido 1 100 ⟨some [⟨1, 6⟩], 60, 1, none⟩ tiendaConPedido).2.productos =
      (nuevoPedido 1 101 ⟨some [⟨1, 6⟩], 60, 1, none⟩
        (eliminarPedido 1 100 tiendaConPedido).2).2.productos :=
  actualizar_equivale 1 100 101 ⟨some [⟨1, 6⟩], 60, 1, none⟩ tiendaConPedido [⟨1, 6⟩]
    ⟨100, [⟨1, 4⟩], 40, 1, 1, Estado.pendiente⟩ ⟨1, 1⟩ rfl rfl rfl rfl rfl (by decide)

/-! ## Claims on ownership -/

/-- C7 as stated fails: seller 2 calls `actualizarPedido` on an order of seller 1 with an
input naming a client that is not stored; the call throws "No existe el cliente", a
not-found error, not the forbidden one. -/
theorem actualizar_ajeno_otro_error :
    (∃ pe, Pedido.findById tiendaConPedido.pedidos 100 = some pe ∧ pe.vendedor = 1) ∧
    (actualizarPedido 2 100 ⟨some [⟨1, 1⟩], 10, 9, none⟩ tiendaConPedido).1 =
      .error Err.noExisteCliente ∧
    Err.noExisteCliente.clase ≠ Clase.forbidden := by
  refine ⟨⟨_, rfl, rfl⟩, rfl, by decide⟩

/-- C7, amended. On a stored order owned by another seller, `actualizarPedido` throws and
leaves the whole store unchanged, with a forbidden error when the client named by the
input is stored and with "No existe el cliente" when it is not; `eliminarPedido` throws the
forbidden error and leaves the whole store unchanged. -/
theorem mutacion_ajena (ctx id : Nat) (input : PedidoInput) (s : Almacen) (pe : Pedido)
    (ho : Pedido.findById s.pedidos id = some pe) (hne : pe.vendedor ≠ ctx) :
    (actualizarPedido ctx id input s).2 = s ∧
    (Cliente.findById s.clientes input.cliente = none →
      (actualizarPedido ctx id input s).1 = .error Err.noExisteCliente) ∧
    ((Cliente.findById s.clientes input.cliente).isSome →
      ∃ e, (actualizarPedido ctx id input s).1 = .error e ∧ e.clase = Clase.forbidden) ∧
    eliminarPedido ctx id s = (.error Err.pedidoOtroVendedor, s) ∧
    Err.pedidoOtroVendedor.clase = Clase.forbidden := by
  refine ⟨?_, ?_, ?_, ?_, rfl⟩
  · unfold actualizarPedido
    cases hc : Cliente.findById s.clientes input.cliente with
    | none => simp [ho]
    | some cliente =>
      by_cases hv : cliente.vendedor = ctx
      · simp [ho, hv, hne]
      · simp [ho, hv]
  · intro hc
    unfold actualizarPedido
    simp [ho, hc]
  · intro hc
    obtain ⟨cliente, hcl⟩ := Option.isSome_iff_exists.mp hc
    unfold actualizarPedido
    by_cases hv : cliente.vendedor = ctx
    · exact ⟨Err.pedidoOtroVendedor, by simp [ho, hcl, hv, hne], rfl⟩
    · exact ⟨Err.clienteOtroVendedor, by simp [ho, hcl, hv], rfl⟩
  · unfold eliminarPedido
    simp [ho, hne]

/-- C7, amended, at the spec's scenario 6: seller 2 on the order of seller 1. -/
theorem mutacion_ajena_witness :
    (actualizarPedido 2 100 ⟨some [⟨1, 1⟩], 10, 1, none⟩ tiendaConPedido).2 =
      tiendaConPedido ∧
    (∃ e, (actualizarPedido 2 100 ⟨some [⟨1, 1⟩], 10, 1, none⟩ tiendaConPedido).1 =
      .error e ∧ e.clase = Clase.forbidden) ∧
    eliminarPedido 2 100 tiendaConPedido = (.error Err.pedidoOtroVendedor, tiendaConPedido) :=
  have h := mutacion_ajena 2 100 ⟨some [⟨1, 1⟩], 10, 1, none⟩ tiendaConPedido
    ⟨100, [⟨1, 4⟩], 40, 1, 1, Estado.pendiente⟩ rfl (by decide)
  ⟨h.1, h.2.2.1 rfl, h.2.2.2.1⟩

/-! ## Orders keep naming a client of their own seller -/

theorem clientePropio_some {clientes : List Cliente} {p : Pedido} {c : Cliente}
    (h : clientePropio clientes p = true)
    (hc : Cliente.findById clientes p.cliente = some c) : c.vendedor = p.vendedor := by
  unfold clientePropio at h
  rw [hc] at h
  simpa using h

theorem Pedido.mem_of_findById {col : List Pedido} {id : Nat} {p : Pedido}
    (h : Pedido.findById col id = some p) : p ∈ col :=
  List.mem_of_find?_eq_some h

theorem Pedido.mem_findByIdAndDelete {col : List Pedido} {id : Nat} {p : Pedido}
    (h : p ∈ Pedido.findByIdAndDelete col id) : p ∈ col := by
  induction col with
  | nil => simp [Pedido.findByIdAndDelete] at h
  | cons q qs ih =>
    rw [Pedido.findByIdAndDelete] at h
    by_cases hq : (q.id == id) = true
    · rw [if_pos hq] at h
      exact List.mem_cons_of_mem _ h
    · rw [if_neg hq] at h
      rcases List.mem_cons.mp h with h1 | h1
      · rw [h1]; exact List.mem_cons_self _ _
      · exact List.mem_cons_of_mem _ (ih h1)

theorem Pedido.mem_findByIdAndUpdate {col : List Pedido} {id : Nat} {input : PedidoInput}
    {p : Pedido} (h : p ∈ Pedido.findByIdAndUpdate col id input) :
    p ∈ col ∨ ∃ q, Pedido.findById col id = some q ∧ p = Pedido.aplicar input q := by
  induction col with
  | nil => simp [Pedido.findByIdAndUpdate] at h
  | cons q qs ih =>
    rw [Pedido.findByIdAndUpdate] at h
    by_cases hq : (q.id == id) = true
    · rw [if_pos hq] at h
      rcases List.mem_cons.mp h with h1 | h1
      · right
        refine ⟨q, ?_, h1⟩
        unfold Pedido.findById
        rw [List.find?_cons, hq]
      · exact Or.inl (List.mem_cons_of_mem _ h1)
    · rw [if_neg hq] at h
      rcases List.mem_cons.mp h with h1 | h1
      · left; rw [h1]; exact List.mem_cons_self _ _
      · rcases ih h1 with h2 | ⟨q1, hq1, hp1⟩
        · exact Or.inl (List.mem_cons_of_mem _ h2)
        · right
          refine ⟨q1, ?_, hp1⟩
          unfold Pedido.findById at hq1 ⊢
          have hq2 : (q.id == id) = false := by simpa using hq
          rw [List.find?_cons, hq2]
          exact hq1

/-- The relation holds after `nuevoPedido`, whatever its outcome. -/
theorem nuevoPedido_clientePropio (ctx idNuevo : Nat) (input : PedidoInput) (s : Almacen)
    (h : pedidosConClientePropio s) :
    pedidosConClientePropio (nuevoPedido ctx idNuevo input s).2 := by
  rcases hr : nuevoPedido ctx idNuevo input s with ⟨r, s1⟩
  cases r with
  | error e =>
    have := nuevoPedido_error ctx idNuevo input s s1 e hr
    subst this
    exact h
  | ok pedido =>
    obtain ⟨cliente, lineas, hc, hv, hp, hver⟩ :=
      nuevoPedido_inv ctx idNuevo input s s1 pedido hr
    rw [nuevoPedido_exito ctx idNuevo input s lineas cliente hc hv hp hver] at hr
    simp only [Prod.mk.injEq, Except.ok.injEq] at hr
    obtain ⟨_, hs1⟩ := hr
    subst hs1
    intro p hp1
    show clientePropio s.clientes p = true
    rcases List.mem_append.mp hp1 with h1 | h1
    · exact h p h1
    · rw [List.mem_singleton] at h1
      subst h1
      unfold clientePropio
      simp only [hc]
      simpa using hv

/-- The orders `eliminarPedido` leaves are among those it found, the clients are the same. -/
theorem eliminarPedido_clientePropio (ctx id : Nat) (s : Almacen)
    (h : pedidosConClientePropio s) :
    pedidosConClientePropio (eliminarPedido ctx id s).2 := by
  unfold eliminarPedido
  cases ho : Pedido.findById s.pedidos id with
  | none => exact h
  | some pe =>
    by_cases hv : pe.vendedor = ctx
    · simp only [hv, ne_eq, not_true_eq_false, if_false]
      rcases hr : regresarStock pe.pedido s.productos with ⟨e, col⟩
      cases e with
      | some e => exact h
      | none =>
        intro p hp1
        exact h p (Pedido.mem_findByIdAndDelete hp1)
    · simp only [hv, ne_eq, not_false_eq_true, if_true]
      exact h

/-- The relation holds after `actualizarPedido`, whatever its outcome: the order it rewrites
is the caller's and gets a client the caller owns. -/
theorem actualizarPedido_clientePropio (ctx id : Nat) (input : PedidoInput) (s : Almacen)
    (h : pedidosConClientePropio s) :
    pedidosConClientePropio (actualizarPedido ctx id input s).2 := by
  unfold actualizarPedido
  cases ho : Pedido.findById s.pedidos id with
  | none => exact h
  | some pe =>
    cases hc : Cliente.findById s.clientes input.cliente with
    | none => exact h
    | some c =>
      by_cases hv : c.vendedor = ctx
      · by_cases hov : pe.vendedor = ctx
        · have hnuevo : ∀ p ∈ Pedido.findByIdAndUpdate s.pedidos id input,
              clientePropio s.clientes p = true := by
            intro p hp1
            rcases Pedido.mem_findByIdAndUpdate hp1 with h1 | ⟨q, hq, hpq⟩
            · exact h p h1
            · rw [ho] at hq
              cases hq
              subst hpq
              unfold clientePropio
              simp only [Pedido.aplicar, hc]
              simpa [hov] using hv
          simp only [hv, hov, ne_eq, not_true_eq_false, if_false]
          cases hp : input.pedido with
          | none => exact hnuevo
          | some lineas =>
            simp only []
            rcases hr : regresarStock pe.pedido s.productos with ⟨e1, c1⟩
            cases e1 with
            | some e => exact h
            | none =>
              simp only []
              cases hver : verificarStock lineas c1 with
              | some e => exact h
              | none =>
                simp only []
                rcases hd : descontarStock lineas c1 with ⟨e2, c2⟩
                cases e2 with
                | some e => exact h
                | none => exact hnuevo
        · simp only [hv, hov, ne_eq, not_true_eq_false, not_false_eq_true, if_true, if_false]
          exact h
      · simp only [hv, ne_eq, not_false_eq_true, if_true]
        exact h

/-! ## Claims on reads -/

/-- C8 as stated fails: `obtenerPedidos` and `obtenerClientes` do not read the caller and
return every stored order and client, so seller 2 gets the order and the client of
seller 1.  And `obtenerPedido` and `obtenerPedidosVendedor` check the seller of the order
only: when an order of seller 2 names a client of seller 1, seller 2 gets that client
through `populate`. -/
theorem lectura_ajena :
    (∃ p ∈ obtenerPedidos tiendaConPedido, p.vendedor ≠ 2) ∧
    (∃ c ∈ obtenerClientes tiendaConPedido, c.vendedor ≠ 2) ∧
    obtenerPedido 100 2 tiendaClienteAjeno =
      .ok (⟨100, [⟨1, 4⟩], 40, 1, 2, Estado.pendiente⟩, some ⟨1, 1⟩) ∧
    obtenerPedidosVendedor 2 tiendaClienteAjeno =
      [(⟨100, [⟨1, 4⟩], 40, 1, 2, Estado.pendiente⟩, some ⟨1, 1⟩)] ∧
    (⟨1, 1⟩ : Cliente).vendedor ≠ 2 := by
  refine ⟨⟨⟨100, [⟨1, 4⟩], 40, 1, 1, Estado.pendiente⟩, ?_, by decide⟩,
    ⟨⟨1, 1⟩, ?_, by decide⟩, rfl, rfl, by decide⟩ <;>
    simp [obtenerPedidos, obtenerClientes, tiendaConPedido]

/-- C8, amended. `obtenerClientesVendedor`, `obtenerPedidosVendedor` and
`obtenerPedidosEstado` return only clients and orders of the caller; `obtenerCliente` and
`obtenerPedido` return only a client or order of the caller and throw the forbidden error
on one of another seller; the client that `populate` joins to an order returned by
`obtenerPedidosVendedor` or `obtenerPedido` is the caller's when every stored order names a
client of its own seller; `obtenerClientes` and `obtenerPedidos` return the whole
collection whoever calls. -/
theorem lectura_propia (ctx : Nat) (s : Almacen) :
    (∀ c ∈ obtenerClientesVendedor ctx s, c.vendedor = ctx) ∧
    (∀ x ∈ obtenerPedidosVendedor ctx s, x.1.vendedor = ctx) ∧
    (∀ estado, ∀ p ∈ obtenerPedidosEstado estado ctx s, p.vendedor = ctx) ∧
    (∀ id c, obtenerCliente id ctx s = .ok c → c.vendedor = ctx) ∧
    (∀ id c, Cliente.findById s.clientes id = some c → c.vendedor ≠ ctx →
      obtenerCliente id ctx s = .error Err.clienteOtroVendedor) ∧
    (∀ id x, obtenerPedido id ctx s = .ok x → x.1.vendedor = ctx) ∧
    (∀ id p, Pedido.findById s.pedidos id = some p → p.vendedor ≠ ctx →
      obtenerPedido id ctx s = .error Err.pedidoOtroVendedor) ∧
    (pedidosConClientePropio s →
      ∀ x ∈ obtenerPedidosVendedor ctx s, ∀ c, x.2 = some c → c.vendedor = ctx) ∧
    (pedidosConClientePropio s →
      ∀ id x, obtenerPedido id ctx s = .ok x → ∀ c, x.2 = some c → c.vendedor = ctx) ∧
    Err.clienteOtroVendedor.clase = Clase.forbidden ∧
    Err.pedidoOtroVendedor.clase = Clase.forbidden ∧
    obtenerClientes s = s.clientes ∧ obtenerPedidos s = s.pedidos := by
  refine ⟨?_, ?_, ?_, ?_, ?_, ?_, ?_, ?_, ?_, rfl, rfl, rfl, rfl⟩
  · intro c hc
    simpa using (List.mem_filter.mp hc).2
  · intro x hx
    obtain ⟨p, hp, rfl⟩ := List.mem_map.mp hx
    simpa [populate] using (List.mem_filter.mp hp).2
  · intro estado p hp
    have := (List.mem_filter.mp hp).2
    simp only [Bool.and_eq_true, beq_iff_eq] at this
    exact this.2
  · intro id c h
    unfold obtenerCliente at h
    cases hf : Cliente.findById s.clientes id with
    | none => simp [hf] at h
    | some c0 =>
      by_cases hv : c0.vendedor = ctx
      · simp [hf, hv] at h
        rw [← h]; exact hv
      · simp [hf, hv] at h
  · intro id c hf hv
    unfold obtenerCliente
    simp [hf, hv]
  · intro id x h
    unfold obtenerPedido at h
    cases hf : Pedido.findById s.pedidos id with
    | none => simp [hf] at h
    | some p0 =>
      by_cases hv : p0.vendedor = ctx
      · simp [hf, hv] at h
        rw [← h]; exact hv
      · simp [hf, hv] at h
  · intro id p hf hv
    unfold obtenerPedido
    simp [hf, hv]
  · intro hinv x hx c hxc
    obtain ⟨p, hp, rfl⟩ := List.mem_map.mp hx
    obtain ⟨hmem, hven⟩ := List.mem_filter.mp hp
    have hpv : p.vendedor = ctx := by simpa using hven
    rw [← hpv]
    exact clientePropio_some (hinv p hmem) hxc
  · intro hinv id x h c hxc
    unfold obtenerPedido at h
    cases hf : Pedido.findById s.pedidos id with
    | none => simp [hf] at h
    | some p0 =>
      by_cases hv : p0.vendedor = ctx
      · simp [hf, hv] at h
        subst h
        rw [← hv]
        exact clientePropio_some (hinv p0 (Pedido.mem_of_findById hf)) hxc
      · simp [hf, hv] at h

/-- C8, amended, on a concrete store: reading order 100 or client 1 of seller 1 by
identifier is refused to seller 2, who lists no order of another seller; seller 1 gets
with each of its orders a client of its own. -/
theorem lectura_propia_witness :
    obtenerCliente 1 2 tiendaConPedido = .error Err.clienteOtroVendedor ∧
    obtenerPedido 100 2 tiendaConPedido = .error Err.pedidoOtroVendedor ∧
    (∀ x ∈ obtenerPedidosVendedor 2 tiendaConPedido, x.1.vendedor = 2) ∧
    (∀ x ∈ obtenerPedidosVendedor 1 tiendaConPedido, ∀ c, x.2 = some c → c.vendedor = 1) ∧
    (∀ c, (populate tiendaConPedido ⟨100, [⟨1, 4⟩], 40, 1, 1, Estado.pendiente⟩).2 = some c →
      c.vendedor = 1) :=
  have h := lectura_propia 2 tiendaConPedido
  have h1 := lectura_propia 1 tiendaConPedido
  ⟨h.2.2.2.2.1 1 ⟨1, 1⟩ rfl (by decide),
    h.2.2.2.2.2.2.1 100 ⟨100, [⟨1, 4⟩], 40, 1, 1, Estado.pendiente⟩ rfl (by decide),
    h.2.1,
    h1.2.2.2.2.2.2.2.1 (by decide),
    h1.2.2.2.2.2.2.2.2.1 (by decide) 100 _ rfl⟩

/-! ## Claims on the rankings -/

/-- C9. Ranking correctness fails on the code, which limits before it sorts: with four
sellers `mejoresVendedores` keeps the first three groups and sorts them, so seller 4, whose
completed orders sum to 1120, is left out while seller 3 with 100 is returned; with eleven
clients `mejoresClientes` returns the first ten and leaves out client 11 with 1000. -/
theorem ranking_limita_antes_de_ordenar :
    (mejoresVendedores tiendaRanking).map (fun g => (g.id, g.total)) =
      [(2, 180), (1, 150), (3, 100)] ∧
    totalCompletado (fun p => p.vendedor) tiendaRanking.pedidos 4 = 1120 ∧
    (mejoresClientes tiendaRanking).map (fun g => (g.id, g.total)) =
      [(10, 100), (9, 90), (8, 80), (7, 70), (6, 60), (5, 50), (4, 40), (3, 30), (2, 20),
        (1, 10)] ∧
    totalCompletado (fun p => p.cliente) tiendaRanking.pedidos 11 = 1000 := by
  refine ⟨by decide, by decide, by decide, by decide⟩

/-! ## Claims on repeated deletion -/

theorem Pedido.findById_eq_none_of_not_mem (col : List Pedido) (id : Nat)
    (h : id ∉ col.map (fun p => p.id)) : Pedido.findById col id = none := by
  unfold Pedido.findById
  rw [List.find?_eq_none]
  intro p hp hid
  exact h (List.mem_map.mpr ⟨p, hp, by simpa using hid⟩)

theorem Pedido.findById_findByIdAndDelete (col : List Pedido) (id : Nat)
    (h : (col.map (fun p => p.id)).Nodup) :
    Pedido.findById (Pedido.findByIdAndDelete col id) id = none := by
  induction col with
  | nil => rfl
  | cons q qs ih =>
    rw [List.map_cons, List.nodup_cons] at h
    by_cases hq : q.id = id
    · have hq2 : (q.id == id) = true := by simpa using hq
      rw [Pedido.findByIdAndDelete, hq2]
      simp only [if_true]
      exact Pedido.findById_eq_none_of_not_mem qs id (hq ▸ h.1)
    · have hq2 : (q.id == id) = false := by simpa using hq
      rw [Pedido.findByIdAndDelete, hq2]
      simp only [Bool.false_eq_true, if_false]
      unfold Pedido.findById
      rw [List.find?_cons, hq2]
      exact ih h.2

/-- A successful `eliminarPedido` leaves the order collection with the document removed. -/
theorem eliminarPedido_inv (ctx id n : Nat) (s s1 : Almacen)
    (h : eliminarPedido ctx id s = (.ok n, s1)) :
    s1.pedidos = Pedido.findByIdAndDelete s.pedidos id := by
  unfold eliminarPedido at h
  cases ho : Pedido.findById s.pedidos id with
  | none => simp [ho] at h
  | some pe =>
    by_cases hv : pe.vendedor = ctx
    · rcases hr : regresarStock pe.pedido s.productos with ⟨e, col⟩
      cases e with
      | none =>
        simp [ho, hv, hr] at h
        rw [← h.2]
      | some e => simp [ho, hv, hr] at h
    · simp [ho, hv] at h

/-- C10. Idempotent deletion: `eliminarPedido` on an identifier no stored order has throws
the not-found error and leaves the whole store (so every stock) unchanged; and, order
identifiers being unique, after a successful `eliminarPedido` of an identifier a second one
by any seller throws the not-found error and leaves the store unchanged. -/
theorem eliminarPedido_idempotente (ctx id : Nat) (s : Almacen) :
    (Pedido.findById s.pedidos id = none →
      eliminarPedido ctx id s = (.error Err.pedidoNoExiste, s)) ∧
    Err.pedidoNoExiste.clase = Clase.notFound ∧
    (∀ n s1, (s.pedidos.map (fun p => p.id)).Nodup →
      eliminarPedido ctx id s = (.ok n, s1) →
      ∀ ctx2, eliminarPedido ctx2 id s1 = (.error Err.pedidoNoExiste, s1)) := by
  refine ⟨?_, rfl, ?_⟩
  · intro h
    unfold eliminarPedido
    simp [h]
  · intro n s1 hnd h ctx2
    have hs1 := eliminarPedido_inv ctx id n s s1 h
    have hnone : Pedido.findById s1.pedidos id = none := by
      rw [hs1]
      exact Pedido.findById_findByIdAndDelete s.pedidos id hnd
    unfold eliminarPedido
    simp [hnone]

/-- C10 at the spec's scenario 3 repeated: the order is deleted once, the second deletion
is refused and the stock stays at 10. -/
theorem eliminarPedido_idempotente_witness :
    eliminarPedido 1 7 tiendaConPedido = (.error Err.pedidoNoExiste, tiendaConPedido) ∧
    eliminarPedido 1 100 (eliminarPedido 1 100 tiendaConPedido).2 =
      (.error Err.pedidoNoExiste, (eliminarPedido 1 100 tiendaConPedido).2) ∧
    existenciaDe (eliminarPedido 1 100 tiendaConPedido).2.productos 1 = some 10 :=
  have h := eliminarPedido_idempotente 1 100 tiendaConPedido
  ⟨(eliminarPedido_idempotente 1 7 tiendaConPedido).1 rfl,
    h.2.2 100 (eliminarPedido 1 100 tiendaConPedido).2 (by decide) rfl 1, rfl⟩

/-! ## Claims on `actualizarPedido` without line items -/

theorem Pedido.findById_findByIdAndUpdate (col : List Pedido) (id : Nat)
    (input : PedidoInput) (k : Nat) :
    Pedido.findById (Pedido.findByIdAndUpdate col id input) k =
      if k = id then (Pedido.findById col id).map (Pedido.aplicar input)
      else Pedido.findById col k := by
  induction col with
  | nil => simp [Pedido.findByIdAndUpdate, Pedido.findById]
  | cons q qs ih =>
    unfold Pedido.findById at ih ⊢
    by_cases hq : q.id = id
    · have hq2 : (q.id == id) = true := by simpa using hq
      rw [Pedido.findByIdAndUpdate, hq2]
      simp only [if_true]
      by_cases hk : k = id
      · subst hk
        simp [List.find?_cons, Pedido.aplicar, hq]
      · have hqk : ¬ q.id = k := fun h => hk (by rw [← h, hq])
        simp [List.find?_cons, Pedido.aplicar, hqk, hk]
    · have hq2 : (q.id == id) = false := by simpa using hq
      rw [Pedido.findByIdAndUpdate, hq2]
      simp only [Bool.false_eq_true, if_false]
      by_cases hk : k = id
      · subst hk
        simpa [List.find?_cons, hq] using ih
      · by_cases hqk : q.id = k
        · simp [List.find?_cons, hqk, hk]
        · simpa [List.find?_cons, hqk, hk] using ih

/-- C11. Update without line items: for a stored order owned by the caller and an input with
no line list, `actualizarPedido` leaves the product collection (so every stock) and the
clients unchanged, and the order stored under the identifier keeps its lines, identifier
and seller.  When the client named by the input is stored and owned by the caller the call
succeeds and the stored order is the old one with `total`, `cliente` and `estado` taken from
the input, the other orders being untouched; otherwise the call throws and the whole store
is unchanged. -/
theorem actualizarPedido_sin_lineas (ctx id : Nat) (input : PedidoInput) (s : Almacen)
    (pe : Pedido) (hp : input.pedido = none)
    (ho : Pedido.findById s.pedidos id = some pe) (hov : pe.vendedor = ctx) :
    (actualizarPedido ctx id input s).2.productos = s.productos ∧
    (actualizarPedido ctx id input s).2.clientes = s.clientes ∧
    (∃ pe1, Pedido.findById (actualizarPedido ctx id input s).2.pedidos id = some pe1 ∧
      pe1.pedido = pe.pedido ∧ pe1.id = pe.id ∧ pe1.vendedor = pe.vendedor) ∧
    (∀ cliente, Cliente.findById s.clientes input.cliente = some cliente →
      cliente.vendedor = ctx →
      (actualizarPedido ctx id input s).1 = .ok (some (Pedido.aplicar input pe)) ∧
      Pedido.findById (actualizarPedido ctx id input s).2.pedidos id =
        some { pe with total := input.total, cliente := input.cliente,
                       estado := input.estado.getD pe.estado } ∧
      ∀ k, k ≠ id →
        Pedido.findById (actualizarPedido ctx id input s).2.pedidos k =
          Pedido.findById s.pedidos k) ∧
    ((∀ cliente, Cliente.findById s.clientes input.cliente = some cliente →
        cliente.vendedor ≠ ctx) →
      ∃ e, actualizarPedido ctx id input s = (.error e, s)) := by
  have hupd : Pedido.findById (Pedido.findByIdAndUpdate s.pedidos id input) id =
      some (Pedido.aplicar input pe) := by
    rw [Pedido.findById_findByIdAndUpdate, ho]
    simp
  have hapl : Pedido.aplicar input pe =
      { pe with total := input.total, cliente := input.cliente,
                estado := input.estado.getD pe.estado } := by
    simp [Pedido.aplicar, hp]
  cases hc : Cliente.findById s.clientes input.cliente with
  | none =>
    have hr : actualizarPedido ctx id input s = (.error Err.noExisteCliente, s) := by
      unfold actualizarPedido
      simp [ho, hc]
    rw [hr]
    refine ⟨rfl, rfl, ⟨pe, ho, rfl, rfl, rfl⟩, ?_, fun _ => ⟨_, rfl⟩⟩
    intro cliente h
    cases h
  | some c =>
    by_cases hv : c.vendedor = ctx
    · have hr : actualizarPedido ctx id input s =
          (.ok (Pedido.findById (Pedido.findByIdAndUpdate s.pedidos id input) id),
            { s with pedidos := Pedido.findByIdAndUpdate s.pedidos id input }) := by
        unfold actualizarPedido
        simp [ho, hc, hv, hov, hp]
      rw [hr]
      refine ⟨rfl, rfl, ⟨_, hupd, ?_, rfl, rfl⟩, ?_, ?_⟩
      · rw [hapl]
      · intro cliente _ _
        refine ⟨by rw [hupd], ?_, ?_⟩
        · show Pedido.findById (Pedido.findByIdAndUpdate s.pedidos id input) id = _
          rw [hupd, hapl]
        · intro k hk
          show Pedido.findById (Pedido.findByIdAndUpdate s.pedidos id input) k = _
          rw [Pedido.findById_findByIdAndUpdate, if_neg hk]
      · intro hall
        exact absurd hv (hall c rfl)
    · have hr : actualizarPedido ctx id input s = (.error Err.clienteOtroVendedor, s) := by
        unfold actualizarPedido
        simp [ho, hc, hv]
      rw [hr]
      refine ⟨rfl, rfl, ⟨pe, ho, rfl, rfl, rfl⟩, ?_, fun _ => ⟨_, rfl⟩⟩
      intro cliente h hcv
      cases h
      exact absurd hcv hv

/-- C11 on a concrete store: the order of 4 units gets a new total and state, its lines and
the stock of 6 stay. -/
theorem actualizarPedido_sin_lineas_witness :
    (actualizarPedido 1 100 ⟨none, 99, 1, some Estado.completado⟩ tiendaConPedido).2.productos =
      tiendaConPedido.productos ∧
    Pedido.findById
      (actualizarPedido 1 100 ⟨none, 99, 1, some Estado.completado⟩ tiendaConPedido).2.pedidos
      100 = some ⟨100, [⟨1, 4⟩], 99, 1, 1, Estado.completado⟩ :=
  have h := actualizarPedido_sin_lineas 1 100 ⟨none, 99, 1, some Estado.completado⟩
    tiendaConPedido ⟨100, [⟨1, 4⟩], 40, 1, 1, Estado.pendiente⟩ rfl rfl rfl
  ⟨h.1, (h.2.2.2.1 ⟨1, 1⟩ rfl rfl).2.1⟩

end CRM
